import Mathlib

/-
Verification development for the wgpu-fun paddle-and-ball simulation.

The embedding follows the Rust sources:
  * src/collison.rs       — geometry primitives
  * src/main.rs           — entity model and fixed-tick simulation loop
  * src/renderer/buffer.rs — MeshBuilder with index rebasing

f32 arithmetic is modelled as exact real arithmetic, except in
`circle_intersects_line_segment`, where normalizing a zero-length direction
vector produces IEEE NaN in the real program; there scalars are modelled by
`F32`, a real number or NaN, so that the NaN data flow is preserved.
-/

namespace WgpuFun

open Classical

/-- Planar vector of real coordinates, modelling `cgmath::Vector2<f32>`. -/
@[ext]
structure Vector2 where
  x : ℝ
  y : ℝ

/-- Scalar model for the f32 values that flow through
`circle_intersects_line_segment`: either a finite real or NaN. Division by
zero is mapped to NaN; in IEEE it yields an infinity, but the only reachable
division by zero here (normalizing the zero vector) immediately multiplies
that infinity by 0, which is NaN, so the observable results coincide. -/
inductive F32 where
  | nan : F32
  | fin : ℝ → F32

def F32.add : F32 → F32 → F32
  | F32.fin a, F32.fin b => F32.fin (a + b)
  | _, _ => F32.nan

def F32.sub : F32 → F32 → F32
  | F32.fin a, F32.fin b => F32.fin (a - b)
  | _, _ => F32.nan

def F32.mul : F32 → F32 → F32
  | F32.fin a, F32.fin b => F32.fin (a * b)
  | _, _ => F32.nan

noncomputable def F32.div : F32 → F32 → F32
  | F32.fin a, F32.fin b => if b = 0 then F32.nan else F32.fin (a / b)
  | _, _ => F32.nan

/-- Square root on the scalar model; f32 sqrt of a negative number is NaN. -/
noncomputable def F32.sqrt : F32 → F32
  | F32.fin a => if a < 0 then F32.nan else F32.fin (Real.sqrt a)
  | F32.nan => F32.nan

/-- Strict comparison: every comparison involving NaN is false. -/
def F32.lt : F32 → F32 → Prop
  | F32.fin a, F32.fin b => a < b
  | _, _ => False

/-- Non-strict comparison: every comparison involving NaN is false. -/
def F32.le : F32 → F32 → Prop
  | F32.fin a, F32.fin b => a ≤ b
  | _, _ => False

/-- Vector of `F32` scalars, for the NaN-aware parts of the geometry. -/
structure VF where
  x : F32
  y : F32

def VF.ofV (v : Vector2) : VF := ⟨F32.fin v.x, F32.fin v.y⟩

def VF.add (a b : VF) : VF := ⟨F32.add a.x b.x, F32.add a.y b.y⟩

def VF.sub (a b : VF) : VF := ⟨F32.sub a.x b.x, F32.sub a.y b.y⟩

def VF.dot (a b : VF) : F32 := F32.add (F32.mul a.x b.x) (F32.mul a.y b.y)

/-- `scale c v` is cgmath's `v * c` (vector times scalar). -/
def VF.scale (c : F32) (v : VF) : VF := ⟨F32.mul v.x c, F32.mul v.y c⟩

/-- cgmath `magnitude`: square root of the dot product with itself. -/
noncomputable def VF.magnitude (v : VF) : F32 := F32.sqrt (VF.dot v v)

/-- cgmath `normalize`: `self * (1 / self.magnitude())`. -/
noncomputable def VF.normalize (v : VF) : VF :=
  VF.scale (F32.div (F32.fin 1) (VF.magnitude v)) v

/-- src/collison.rs `is_right`: checks if p is to the right of line ab.
Vertical and horizontal lines are special-cased; otherwise the line
equation y = m x + c is solved from a and b. -/
noncomputable def is_right (p a b : Vector2) : Prop :=
  if a.x = b.x then
    p.x > a.x
  else if a.y = b.y then
    p.y > a.y
  else
    let dx := b.x - a.x
    let dy := b.y - a.y
    let m := dy / dx
    let c := a.y - m * a.x
    p.y > m * p.x + c

/-- src/collison.rs `triangle_contains`: same-side test via three XORs. -/
noncomputable def triangle_contains (p v1 v2 v3 : Vector2) : Prop :=
  let s1 := Xor' (is_right p v1 v2) (is_right v3 v1 v2)
  let s2 := Xor' (is_right p v1 v3) (is_right v2 v1 v3)
  let s3 := Xor' (is_right p v2 v3) (is_right v1 v2 v3)
  ¬s1 ∧ ¬s2 ∧ ¬s3

/-- src/collison.rs `circle_intersects_line_segment`: project the center on
the line through a and b, clamp to the segment, compare the distance with
the radius. Computed in the NaN-aware scalar model `F32`. -/
noncomputable def circle_intersects_line_segment
    (c : Vector2) (r : ℝ) (a b : Vector2) : Prop :=
  let cf := VF.ofV c
  let af := VF.ofV a
  let bf := VF.ofV b
  let closest_point :=
    let line := VF.sub bf af
    let line_norm := VF.normalize line
    let ac := VF.sub cf af
    let t := VF.dot ac line_norm
    if F32.lt t (F32.fin 0) then af
    else if F32.lt (VF.magnitude line) t then bf
    else VF.add af (VF.scale t line_norm)
  let distance := VF.magnitude (VF.sub cf closest_point)
  F32.le distance (F32.fin r)

/-- src/collison.rs `circle_intersects_triangle`. -/
noncomputable def circle_intersects_triangle
    (c : Vector2) (r : ℝ) (v1 v2 v3 : Vector2) : Prop :=
  triangle_contains c v1 v2 v3
    ∨ circle_intersects_line_segment c r v1 v2
    ∨ circle_intersects_line_segment c r v1 v3
    ∨ circle_intersects_line_segment c r v2 v3

/-- Euclidean distance between two points, used to state the spec sentence
about degenerate segments (`distance(c, a) <= r`). -/
noncomputable def vdist (p q : Vector2) : ℝ :=
  Real.sqrt ((p.x - q.x) ^ 2 + (p.y - q.y) ^ 2)

/-- Rust `f32::clamp(self, lo, hi)` on finite values. -/
noncomputable def clamp (v lo hi : ℝ) : ℝ :=
  if v < lo then lo else if v > hi then hi else v

/-- winit `ElementState`. -/
inductive ElementState where
  | Pressed : ElementState
  | Released : ElementState
deriving DecidableEq

/-- src/main.rs `Event`. -/
inductive Event where
  | Left : ElementState → Event
  | Right : ElementState → Event
  | Reset : Event
deriving DecidableEq

/-- src/main.rs `Controls`: latched key state. -/
structure Controls where
  left : ElementState
  right : ElementState
deriving DecidableEq

/-- src/main.rs `Ball`: position and velocity. -/
@[ext]
structure Ball where
  position : Vector2
  velocity : Vector2

/-- `Ball::RADIUS`. -/
def ballRadius : ℝ := 0.05

/-- src/main.rs `Paddle`: track position x and steering value velocity. -/
@[ext]
structure Paddle where
  x : ℝ
  velocity : ℝ

/-- `Paddle::WIDTH`. -/
def paddleWidth : ℝ := 0.4

/-- `Paddle::HEIGHT`. -/
def paddleHeight : ℝ := 0.2

/-- `Paddle::Y`. -/
def paddleY : ℝ := -0.7

/-- `Paddle::ANGLE_MULTIPLIER = FRAC_PI_8` (idealized as exact π/8). -/
noncomputable def angleMultiplier : ℝ := Real.pi / 8

/-- `Paddle::NORMAL_ANGLE_MULTIPLIER = FRAC_PI_8 / 2`. -/
noncomputable def normalAngleMultiplier : ℝ := Real.pi / 8 / 2

/-- Rotation of a vector by an angle, as performed by `cgmath::Basis2`
(and by the inlined sin/cos arithmetic in `Paddle::points`). -/
noncomputable def rotateVec (θ : ℝ) (v : Vector2) : Vector2 :=
  ⟨v.x * Real.cos θ - v.y * Real.sin θ, v.x * Real.sin θ + v.y * Real.cos θ⟩

/-- `Paddle::points`: corners of the fixed-size rectangle rotated by
`velocity * ANGLE_MULTIPLIER` about its center, translated to `(x, Y)`.
The Rust array-of-four with two maps is rendered as a quadruple, in the
source order a, b, c, d. -/
noncomputable def Paddle.points (p : Paddle) :
    Vector2 × Vector2 × Vector2 × Vector2 :=
  let angle := p.velocity * angleMultiplier
  let corner := fun (q : Vector2) =>
    let r := rotateVec angle q
    (⟨p.x + r.x, r.y + paddleY⟩ : Vector2)
  ( corner ⟨-(paddleWidth / 2), -(paddleHeight / 2)⟩
  , corner ⟨paddleWidth / 2, -(paddleHeight / 2)⟩
  , corner ⟨paddleWidth / 2, paddleHeight / 2⟩
  , corner ⟨-(paddleWidth / 2), paddleHeight / 2⟩ )

/-- `Paddle::contains`: circle of the ball against the two triangles
(a, b, c) and (a, c, d) of the paddle quad. -/
noncomputable def Paddle.contains (p : Paddle) (b : Ball) : Prop :=
  let pts := p.points
  let a := pts.1
  let pb := pts.2.1
  let pc := pts.2.2.1
  let pd := pts.2.2.2
  circle_intersects_triangle b.position ballRadius a pb pc
    ∨ circle_intersects_triangle b.position ballRadius a pc pd

/-- `Paddle::normal`: 50/50 blend of two rotated unit-up vectors, one from
the steering value and one from the track position. -/
noncomputable def Paddle.normal (p : Paddle) : Vector2 :=
  let velocity := rotateVec (p.velocity * normalAngleMultiplier) ⟨0, 1⟩
  let position := rotateVec (p.x * normalAngleMultiplier) ⟨0, 1⟩
  ⟨velocity.x * 0.5 + position.x * 0.5, velocity.y * 0.5 + position.y * 0.5⟩

/-- `LoseZone::contains`: `point.y < -1.0 + HEIGHT` with `HEIGHT = 0.1`. -/
noncomputable def loseZoneContains (point : Vector2) : Prop :=
  point.y < -1 + 0.1

/-- Full state mutated by the simulation loop, together with the shared
camera offset cell (written once per tick, never read back elsewhere). -/
@[ext]
structure SimState where
  ball : Ball
  paddle : Paddle
  controls : Controls
  camera : ℝ

/-- Initial state of `main`: ball at (0, 0.7) at rest, paddle at 0 with no
steering, both keys released, camera offset 0. -/
def initState : SimState :=
  { ball := { position := ⟨0, 0.7⟩, velocity := ⟨0, 0⟩ }
    paddle := { x := 0, velocity := 0 }
    controls := { left := ElementState.Released, right := ElementState.Released }
    camera := 0 }

/-- Effect of one drained event (the match in the drain loop): Left/Right
latch the key state, Reset puts the ball back at the spawn point. -/
def applyEvent (s : SimState) (e : Event) : SimState :=
  match e with
  | Event.Left st => { s with controls := { s.controls with left := st } }
  | Event.Right st => { s with controls := { s.controls with right := st } }
  | Event.Reset => { s with ball := { s.ball with position := ⟨0, 0.7⟩ } }

/-- Drain phase: apply the backlog of events in order. -/
def drainEvents (s : SimState) (evs : List Event) : SimState :=
  evs.foldl applyEvent s

/-- Steering update: left only lowers velocity (floor -1), right only
raises it (cap 1), otherwise geometric decay. -/
noncomputable def steerStep (s : SimState) : SimState :=
  match s.controls with
  | ⟨ElementState.Pressed, ElementState.Released⟩ =>
      { s with paddle := { s.paddle with velocity := max (s.paddle.velocity - 0.05) (-1.0) } }
  | ⟨ElementState.Released, ElementState.Pressed⟩ =>
      { s with paddle := { s.paddle with velocity := min (s.paddle.velocity + 0.05) 1.0 } }
  | _ =>
      { s with paddle := { s.paddle with velocity := s.paddle.velocity * 0.95 } }

/-- Paddle position update: `paddle.x = (paddle.x + paddle.velocity / 20.).clamp(-5.5, 5.5)`. -/
noncomputable def positionStep (s : SimState) : SimState :=
  { s with paddle := { s.paddle with x := clamp (s.paddle.x + s.paddle.velocity / 20) (-5.5) 5.5 } }

/-- Pseudo-gravity: `ball.velocity.y += ball.velocity.y.clamp(-0.5, -0.1) * 0.01`. -/
noncomputable def gravityStep (s : SimState) : SimState :=
  { s with ball := { s.ball with velocity :=
      ⟨s.ball.velocity.x, s.ball.velocity.y + clamp s.ball.velocity.y (-0.5) (-0.1) * 0.01⟩ } }

/-- Collision resolution; `j` is the `rng.gen::<f32>()` draw of this tick. -/
noncomputable def collisionStep (s : SimState) (j : ℝ) : SimState :=
  if s.paddle.contains s.ball then
    let n := s.paddle.normal
    let v : Vector2 := ⟨s.ball.velocity.x + n.x, s.ball.velocity.y + n.y⟩
    { s with ball := { s.ball with velocity := ⟨v.x + (j * 2 - 0.5) * 0.01, v.y⟩ } }
  else s

/-- Damping: componentwise decay by 0.95, then componentwise clamp to
[-0.1, 0.1]. -/
noncomputable def dampingStep (s : SimState) : SimState :=
  let decayed : Vector2 := ⟨s.ball.velocity.x * 0.95, s.ball.velocity.y * 0.95⟩
  { s with ball := { s.ball with velocity :=
      ⟨clamp decayed.x (-0.1) 0.1, clamp decayed.y (-0.1) 0.1⟩ } }

/-- Integration: `ball.position += ball.velocity`, then clamp x to the
track bounds. -/
noncomputable def integrateStep (s : SimState) : SimState :=
  let moved : Vector2 := ⟨s.ball.position.x + s.ball.velocity.x, s.ball.position.y + s.ball.velocity.y⟩
  { s with ball := { s.ball with position := ⟨clamp moved.x (-5.5) 5.5, moved.y⟩ } }

/-- Camera update: `camera = ((camera * 10 + paddle.x) / 11).clamp(-5.0, 5.0)`. -/
noncomputable def cameraStep (s : SimState) : SimState :=
  { s with camera := clamp ((s.camera * 10 + s.paddle.x) / 11) (-5.0) 5.0 }

/-- One tick of the simulation loop, in source order: drain, steering,
paddle position, gravity, collision, damping, integration, camera.
`evs` is the event backlog drained this tick and `j` the rng draw. -/
noncomputable def tick (s : SimState) (evs : List Event) (j : ℝ) : SimState :=
  cameraStep (integrateStep (dampingStep (collisionStep
    (gravityStep (positionStep (steerStep (drainEvents s evs)))) j)))

/-- Loss check performed after integration: when the ball is in the lose
zone the loop enqueues a `Reset` event, consumed by a later tick's drain. -/
noncomputable def emitsReset (s : SimState) (evs : List Event) (j : ℝ) : Prop :=
  loseZoneContains (integrateStep (dampingStep (collisionStep
    (gravityStep (positionStep (steerStep (drainEvents s evs)))) j))).ball.position

/-- src/renderer/buffer.rs `Vertex`. -/
structure Vertex where
  position : ℝ × ℝ
  color : ℝ × ℝ × ℝ

/-- src/renderer/buffer.rs `MeshBuilder`. -/
structure MeshBuilder where
  vertices : List Vertex
  indices : List ℕ

/-- `MeshBuilder::push`: the supplied indices are rebased by the current
vertex count and appended, then the vertices are appended. The index
arithmetic is u16: both the `as u16` cast of the vertex count and the
addition reduce modulo 2^16 (release-mode wrap-around semantics). -/
def MeshBuilder.push (b : MeshBuilder) (vs : List Vertex) (is : List ℕ) :
    MeshBuilder :=
  let current_vertex := b.vertices.length % 65536
  { vertices := b.vertices ++ vs
    indices := b.indices ++ is.map (fun i => (current_vertex + i) % 65536) }

theorem clamp_le_hi {v lo hi : ℝ} (h : lo ≤ hi) : clamp v lo hi ≤ hi := by
  unfold clamp
  split_ifs <;> linarith

theorem lo_le_clamp {v lo hi : ℝ} (h : lo ≤ hi) : lo ≤ clamp v lo hi := by
  unfold clamp
  split_ifs <;> linarith

@[simp]
theorem applyEvent_camera (s : SimState) (e : Event) :
    (applyEvent s e).camera = s.camera := by
  cases e <;> rfl

@[simp]
theorem applyEvent_paddle (s : SimState) (e : Event) :
    (applyEvent s e).paddle = s.paddle := by
  cases e <;> rfl

@[simp]
theorem drainEvents_camera (s : SimState) (evs : List Event) :
    (drainEvents s evs).camera = s.camera := by
  induction evs generalizing s with
  | nil => rfl
  | cons e rest ih => simpa [drainEvents, List.foldl] using ih (applyEvent s e)

@[simp]
theorem steerStep_camera (s : SimState) : (steerStep s).camera = s.camera := by
  rcases s with ⟨b, p, ⟨l, r⟩, cam⟩
  cases l <;> cases r <;> rfl

@[simp]
theorem steerStep_paddle_x (s : SimState) :
    (steerStep s).paddle.x = s.paddle.x := by
  rcases s with ⟨b, p, ⟨l, r⟩, cam⟩
  cases l <;> cases r <;> rfl

@[simp]
theorem positionStep_camera (s : SimState) :
    (positionStep s).camera = s.camera := rfl

@[simp]
theorem gravityStep_camera (s : SimState) :
    (gravityStep s).camera = s.camera := rfl

@[simp]
theorem gravityStep_paddle (s : SimState) :
    (gravityStep s).paddle = s.paddle := rfl

@[simp]
theorem collisionStep_camera (s : SimState) (j : ℝ) :
    (collisionStep s j).camera = s.camera := by
  unfold collisionStep
  split <;> rfl

@[simp]
theorem collisionStep_paddle (s : SimState) (j : ℝ) :
    (collisionStep s j).paddle = s.paddle := by
  unfold collisionStep
  split <;> rfl

@[simp]
theorem dampingStep_camera (s : SimState) :
    (dampingStep s).camera = s.camera := rfl

@[simp]
theorem dampingStep_paddle (s : SimState) :
    (dampingStep s).paddle = s.paddle := rfl

@[simp]
theorem integrateStep_camera (s : SimState) :
    (integrateStep s).camera = s.camera := rfl

@[simp]
theorem integrateStep_paddle (s : SimState) :
    (integrateStep s).paddle = s.paddle := rfl

@[simp]
theorem cameraStep_paddle (s : SimState) :
    (cameraStep s).paddle = s.paddle := rfl

theorem degenerate_segment_never_hits (c : Vector2) (r : ℝ) (a : Vector2) :
    ¬ circle_intersects_line_segment c r a a := by
  unfold circle_intersects_line_segment
  simp only [VF.ofV, VF.sub, VF.add, VF.dot, VF.scale, VF.magnitude,
    VF.normalize, F32.add, F32.sub, F32.mul, F32.div, F32.sqrt, sub_self]
  norm_num [F32.mul, F32.add, F32.sqrt, F32.lt, F32.le]

/-- Membership of `Reset` decides the ball position after the drain phase:
a drained `Reset` pins the position to the spawn point and no other event
touches it. -/
theorem drainEvents_ball_position (s : SimState) (evs : List Event) :
    (drainEvents s evs).ball.position
      = if Event.Reset ∈ evs then (⟨0, 0.7⟩ : Vector2) else s.ball.position := by
  induction evs generalizing s with
  | nil => simp [drainEvents]
  | cons e rest ih =>
    have hstep : drainEvents s (e :: rest) = drainEvents (applyEvent s e) rest := rfl
    rw [hstep, ih]
    cases e with
    | Left st => simp [applyEvent]
    | Right st => simp [applyEvent]
    | Reset =>
      simp only [applyEvent, List.mem_cons, true_or, if_pos]
      split <;> rfl

/-- C1 (amended): the pseudo-gravity step adds
`clamp(ball.velocity.y, -0.5, -0.1) * 0.01` to `ball.velocity.y`; since the
clamped value always lies in `[-0.5, -0.1]`, the step always strictly
decreases `ball.velocity.y` — it never leaves it unchanged, not even when
`ball.velocity.y` is non-negative or below `-0.5`. -/
theorem C1_gravity_adds_clamped_term (s : SimState) :
    (gravityStep s).ball.velocity.y
        = s.ball.velocity.y + clamp s.ball.velocity.y (-0.5) (-0.1) * 0.01
      ∧ (gravityStep s).ball.velocity.y < s.ball.velocity.y := by
  refine ⟨rfl, ?_⟩
  have h1 : clamp s.ball.velocity.y (-0.5) (-0.1) ≤ -0.1 :=
    clamp_le_hi (by norm_num)
  have h2 : (gravityStep s).ball.velocity.y
      = s.ball.velocity.y + clamp s.ball.velocity.y (-0.5) (-0.1) * 0.01 := rfl
  rw [h2]
  nlinarith

/-- C1 counterexample: for the resting ball of the initial state
(`velocity.y = 0`, which is non-negative) the pseudo-gravity step does not
leave `velocity.y` unchanged — it drops it to `-0.001`. -/
theorem C1_resting_ball_is_pulled :
    (gravityStep initState).ball.velocity.y ≠ initState.ball.velocity.y := by
  have h : (gravityStep initState).ball.velocity.y
      = 0 + clamp 0 (-0.5) (-0.1) * 0.01 := rfl
  rw [h]
  unfold clamp initState
  norm_num

/-- C4: the paddle position update clamps `paddle.x` into `[-5.5, 5.5]`, so
after the position-update step of any tick — from any state whatsoever,
hence from every reachable state — `paddle.x` lies in the track bounds,
and no later step of the tick modifies it. -/
theorem C4_paddle_x_in_track_bounds (s : SimState) (evs : List Event) (j : ℝ) :
    ((-5.5) ≤ (positionStep (steerStep (drainEvents s evs))).paddle.x
      ∧ (positionStep (steerStep (drainEvents s evs))).paddle.x ≤ 5.5)
    ∧ (tick s evs j).paddle.x
        = (positionStep (steerStep (drainEvents s evs))).paddle.x := by
  refine ⟨⟨lo_le_clamp (by norm_num), clamp_le_hi (by norm_num)⟩, ?_⟩
  simp [tick]

/-- C5: after the damping/clamp step of any tick — from any state
whatsoever, hence from every reachable state — both components of
`ball.velocity` lie in the fixed symmetric bound `[-0.1, 0.1]`. -/
theorem C5_ball_velocity_bounded (s : SimState) :
    ((-0.1) ≤ (dampingStep s).ball.velocity.x
      ∧ (dampingStep s).ball.velocity.x ≤ 0.1)
    ∧ ((-0.1) ≤ (dampingStep s).ball.velocity.y
      ∧ (dampingStep s).ball.velocity.y ≤ 0.1) :=
  ⟨⟨lo_le_clamp (by norm_num), clamp_le_hi (by norm_num)⟩,
   ⟨lo_le_clamp (by norm_num), clamp_le_hi (by norm_num)⟩⟩

/-- C7: on every tick the new camera offset equals
`clamp((old_camera * 10 + paddle.x) / 11, -5.0, 5.0)`, where `old_camera`
is the previously stored offset and `paddle.x` the paddle position written
by this tick. -/
theorem C7_camera_exponential_moving_average
    (s : SimState) (evs : List Event) (j : ℝ) :
    (tick s evs j).camera
      = clamp ((s.camera * 10 + (tick s evs j).paddle.x) / 11) (-5.0) 5.0 := by
  simp [tick, cameraStep]

/-- C2 (amended): the degenerate-segment call
`circle_intersects_line_segment(c, r, a, a)` always returns false: the
zero-length direction is normalized by a division by zero, which produces
NaN, and every comparison involving NaN is false, so neither clamp branch
fires and the final distance test fails. Consequently the call agrees with
`distance(c, a) <= r` exactly when that distance exceeds `r`. -/
theorem C2_degenerate_segment_is_false (c : Vector2) (r : ℝ) (a : Vector2) :
    ¬ circle_intersects_line_segment c r a a
    ∧ ((circle_intersects_line_segment c r a a ↔ vdist c a ≤ r)
        ↔ ¬ vdist c a ≤ r) := by
  have hf := degenerate_segment_never_hits c r a
  exact ⟨hf, by tauto⟩

/-- C2 counterexample: with the center on the degenerate segment
(`c = a = (0,0)`) and radius 1, the distance is 0, so `distance(c, a) <= r`
holds, yet the call returns false — the claimed equivalence fails. -/
theorem C2_point_on_degenerate_segment_missed :
    ¬ (circle_intersects_line_segment ⟨0, 0⟩ 1 ⟨0, 0⟩ ⟨0, 0⟩
        ↔ vdist ⟨0, 0⟩ ⟨0, 0⟩ ≤ 1) := by
  intro h
  have hd : vdist ⟨0, 0⟩ ⟨0, 0⟩ ≤ 1 := by
    unfold vdist
    norm_num
  exact degenerate_segment_never_hits ⟨0, 0⟩ 1 ⟨0, 0⟩ (h.mpr hd)

/-- C3 (amended): if a `Reset` event is consumed during the drain phase of
a tick, then immediately after the drain phase the ball's position equals
the spawn point `(0, 0.7)`, regardless of pre-reset position and velocity.
(The remainder of that same tick then integrates the ball's velocity into
the position, so the spawn point is in general no longer the position at
the start of the following tick.) -/
theorem C3_reset_spawns_after_drain (s : SimState) (evs : List Event)
    (h : Event.Reset ∈ evs) :
    (drainEvents s evs).ball.position = (⟨0, 0.7⟩ : Vector2) := by
  rw [drainEvents_ball_position, if_pos h]

/-- Witness for C3 (amended) at a concrete input. -/
theorem C3_reset_spawns_after_drain_witness :
    Event.Reset ∈ [Event.Reset]
    ∧ (drainEvents initState [Event.Reset]).ball.position
        = (⟨0, 0.7⟩ : Vector2) :=
  ⟨by simp, C3_reset_spawns_after_drain initState [Event.Reset] (by simp)⟩

/-- State reached by a tick from the initial state, after draining a single
`Reset` event and applying the steering, position and gravity steps: the
ball sits at the spawn point with the first gravity pull already applied to
its velocity. -/
noncomputable def resetTickMid : SimState :=
  { ball := { position := ⟨0, 0.7⟩, velocity := ⟨0, -0.001⟩ }
    paddle := { x := 0, velocity := 0 }
    controls := { left := ElementState.Released, right := ElementState.Released }
    camera := 0 }

theorem resetTickPreCollision :
    gravityStep (positionStep (steerStep (drainEvents initState [Event.Reset])))
      = resetTickMid := by
  unfold initState resetTickMid drainEvents steerStep positionStep gravityStep clamp
  simp only [List.foldl, applyEvent]
  norm_num

/-- C3 counterexample: a tick from the initial state that consumes a
`Reset` event does not leave the ball at the spawn point for the start of
the following tick. Whether or not the paddle-collision test fires during
this tick, the integration step moves the ball: without a hit the damped
gravity pull lowers it to y = 0.69905, with a hit the bounce raises it to
y = 0.8 — never 0.7. -/
theorem C3_ball_leaves_spawn_within_reset_tick :
    (tick initState [Event.Reset] 0).ball.position ≠ (⟨0, 0.7⟩ : Vector2) := by
  have ht : tick initState [Event.Reset] 0
      = cameraStep (integrateStep (dampingStep (collisionStep resetTickMid 0))) := by
    unfold tick
    rw [resetTickPreCollision]
  rw [ht]
  intro hEq
  have hy2 : (cameraStep (integrateStep (dampingStep
      (collisionStep resetTickMid 0)))).ball.position.y = 0.7 :=
    congrArg Vector2.y hEq
  by_cases h : resetTickMid.paddle.contains resetTickMid.ball
  · have hy : (cameraStep (integrateStep (dampingStep
        (collisionStep resetTickMid 0)))).ball.position.y = 0.8 := by
      unfold collisionStep
      rw [if_pos h]
      unfold resetTickMid cameraStep integrateStep dampingStep clamp
      unfold Paddle.normal rotateVec normalAngleMultiplier
      norm_num [Real.cos_zero, Real.sin_zero]
    rw [hy] at hy2
    norm_num at hy2
  · have hy : (cameraStep (integrateStep (dampingStep
        (collisionStep resetTickMid 0)))).ball.position.y = 0.69905 := by
      unfold collisionStep
      rw [if_neg h]
      unfold resetTickMid cameraStep integrateStep dampingStep clamp
      norm_num
    rw [hy] at hy2
    norm_num at hy2

/-- Side test at the centroid: against the edge a→b, the centroid of a, b
and w lies on the same side as w — in each of the three branches of
`is_right` the sign of the centroid's margin is the sign of w's margin
scaled by 1/3. -/
theorem is_right_centroid (a b w : Vector2) :
    is_right ⟨(a.x + b.x + w.x) / 3, (a.y + b.y + w.y) / 3⟩ a b
      ↔ is_right w a b := by
  unfold is_right
  split_ifs with h1 h2
  · constructor <;> intro hh <;> simp only at hh ⊢ <;> linarith
  · constructor <;> intro hh <;> simp only at hh ⊢ <;> linarith
  · have hdx : b.x - a.x ≠ 0 := sub_ne_zero.mpr (Ne.symm h1)
    simp only [gt_iff_lt]
    have key : (a.y + b.y + w.y) / 3
        - ((b.y - a.y) / (b.x - a.x) * ((a.x + b.x + w.x) / 3)
            + (a.y - (b.y - a.y) / (b.x - a.x) * a.x))
        = (w.y - ((b.y - a.y) / (b.x - a.x) * w.x
            + (a.y - (b.y - a.y) / (b.x - a.x) * a.x))) / 3 := by
      field_simp
      ring
    constructor <;> intro hh <;> nlinarith [key]

/-- C6: for every non-degenerate triangle (vertices not collinear),
`triangle_contains` applied to the centroid returns true. In fact the proof
shows each of the three same-side XOR tests vanishes at the centroid. -/
theorem C6_centroid_is_inside (v1 v2 v3 : Vector2)
    (_h : (v2.x - v1.x) * (v3.y - v1.y) - (v2.y - v1.y) * (v3.x - v1.x) ≠ 0) :
    triangle_contains
      ⟨(v1.x + v2.x + v3.x) / 3, (v1.y + v2.y + v3.y) / 3⟩ v1 v2 v3 := by
  unfold triangle_contains
  have e1 := is_right_centroid v1 v2 v3
  have e2 : is_right ⟨(v1.x + v2.x + v3.x) / 3, (v1.y + v2.y + v3.y) / 3⟩ v1 v3
      ↔ is_right v2 v1 v3 := by
    have hp : (⟨(v1.x + v2.x + v3.x) / 3, (v1.y + v2.y + v3.y) / 3⟩ : Vector2)
        = ⟨(v1.x + v3.x + v2.x) / 3, (v1.y + v3.y + v2.y) / 3⟩ := by
      ext <;> ring
    rw [hp]
    exact is_right_centroid v1 v3 v2
  have e3 : is_right ⟨(v1.x + v2.x + v3.x) / 3, (v1.y + v2.y + v3.y) / 3⟩ v2 v3
      ↔ is_right v1 v2 v3 := by
    have hp : (⟨(v1.x + v2.x + v3.x) / 3, (v1.y + v2.y + v3.y) / 3⟩ : Vector2)
        = ⟨(v2.x + v3.x + v1.x) / 3, (v2.y + v3.y + v1.y) / 3⟩ := by
      ext <;> ring
    rw [hp]
    exact is_right_centroid v2 v3 v1
  refine ⟨?_, ?_, ?_⟩ <;> simp only [Xor'] <;> tauto

/-- Witness for C6 at the concrete right triangle (0,0), (1,0), (0,1). -/
theorem C6_centroid_is_inside_witness :
    (((⟨1, 0⟩ : Vector2).x - (⟨0, 0⟩ : Vector2).x)
        * ((⟨0, 1⟩ : Vector2).y - (⟨0, 0⟩ : Vector2).y)
      - ((⟨1, 0⟩ : Vector2).y - (⟨0, 0⟩ : Vector2).y)
        * ((⟨0, 1⟩ : Vector2).x - (⟨0, 0⟩ : Vector2).x) ≠ 0)
    ∧ triangle_contains
        ⟨((⟨0, 0⟩ : Vector2).x + (⟨1, 0⟩ : Vector2).x + (⟨0, 1⟩ : Vector2).x) / 3,
         ((⟨0, 0⟩ : Vector2).y + (⟨1, 0⟩ : Vector2).y + (⟨0, 1⟩ : Vector2).y) / 3⟩
        ⟨0, 0⟩ ⟨1, 0⟩ ⟨0, 1⟩ :=
  ⟨by norm_num, C6_centroid_is_inside ⟨0, 0⟩ ⟨1, 0⟩ ⟨0, 1⟩ (by norm_num)⟩

/-- C9: for every paddle state with steering value in [-1, 1] and track
position in [-5.5, 5.5] (all reachable paddle states), the bounce normal
has strictly positive y component — both blended unit-up vectors are
rotated by angles of magnitude below π/2, so their cosines are positive. -/
theorem C9_normal_points_upward (p : Paddle)
    (hv1 : -1 ≤ p.velocity) (hv2 : p.velocity ≤ 1)
    (hx1 : -5.5 ≤ p.x) (hx2 : p.x ≤ 5.5) :
    0 < p.normal.y := by
  have hpi := Real.pi_pos
  have h1 : 0 < Real.cos (p.velocity * normalAngleMultiplier) := by
    apply Real.cos_pos_of_mem_Ioo
    unfold normalAngleMultiplier
    constructor
    · nlinarith
    · nlinarith
  have h2 : 0 < Real.cos (p.x * normalAngleMultiplier) := by
    apply Real.cos_pos_of_mem_Ioo
    unfold normalAngleMultiplier
    constructor
    · nlinarith
    · nlinarith
  unfold Paddle.normal rotateVec
  simp only
  nlinarith

/-- Witness for C9 at the resting paddle. -/
theorem C9_normal_points_upward_witness :
    (-1 ≤ (⟨0, 0⟩ : Paddle).velocity ∧ (⟨0, 0⟩ : Paddle).velocity ≤ 1
      ∧ -5.5 ≤ (⟨0, 0⟩ : Paddle).x ∧ (⟨0, 0⟩ : Paddle).x ≤ 5.5)
    ∧ 0 < (⟨0, 0⟩ : Paddle).normal.y :=
  ⟨by norm_num,
   C9_normal_points_upward ⟨0, 0⟩ (by norm_num) (by norm_num)
     (by norm_num) (by norm_num)⟩

/-- C8 (amended): `MeshBuilder::push` appends each supplied index increased
by the pre-push vertex count reduced modulo 2^16 (the count is cast to u16
and the addition is u16 arithmetic), then appends the vertices. Whenever
the resulting total vertex count stays within u16 range, the rebased
indices equal the plain sums, and each rebased index of the pushed batch
addresses the same vertex of that batch as the original index did in
isolation. -/
theorem C8_push_rebases_indices (b : MeshBuilder) (vs : List Vertex)
    (ids : List ℕ)
    (hfit : b.vertices.length + vs.length ≤ 65536)
    (hvalid : ∀ i ∈ ids, i < vs.length) :
    (b.push vs ids).vertices = b.vertices ++ vs
    ∧ (b.push vs ids).indices
        = b.indices ++ ids.map (fun i => b.vertices.length + i)
    ∧ ∀ i ∈ ids,
        (b.push vs ids).vertices[(b.vertices.length % 65536 + i) % 65536]?
          = vs[i]? := by
  have hsum : ∀ i ∈ ids, b.vertices.length + i < 65536 := by
    intro i hi
    have := hvalid i hi
    omega
  have hmod : ∀ i ∈ ids,
      (b.vertices.length % 65536 + i) % 65536 = b.vertices.length + i := by
    intro i hi
    have h1 := hsum i hi
    have h2 : b.vertices.length < 65536 := by omega
    rw [Nat.mod_eq_of_lt h2, Nat.mod_eq_of_lt h1]
  refine ⟨rfl, ?_, ?_⟩
  · show b.indices
        ++ ids.map (fun i => (b.vertices.length % 65536 + i) % 65536)
      = b.indices ++ ids.map (fun i => b.vertices.length + i)
    rw [List.map_congr_left hmod]
  · intro i hi
    show (b.vertices ++ vs)[(b.vertices.length % 65536 + i) % 65536]? = vs[i]?
    rw [hmod i hi,
      List.getElem?_append_right (Nat.le_add_right b.vertices.length i),
      Nat.add_sub_cancel_left]

/-- Witness for C8 (amended) at a concrete small push. -/
theorem C8_push_rebases_indices_witness :
    ((⟨[], []⟩ : MeshBuilder).vertices.length
        + [(⟨(0, 0), (0, 0, 0)⟩ : Vertex), ⟨(0, 0), (1, 1, 1)⟩].length ≤ 65536)
    ∧ (∀ i ∈ [1], i < [(⟨(0, 0), (0, 0, 0)⟩ : Vertex), ⟨(0, 0), (1, 1, 1)⟩].length)
    ∧ ((MeshBuilder.push ⟨[], []⟩
          [⟨(0, 0), (0, 0, 0)⟩, ⟨(0, 0), (1, 1, 1)⟩] [1]).vertices
          = (⟨[], []⟩ : MeshBuilder).vertices
              ++ [⟨(0, 0), (0, 0, 0)⟩, ⟨(0, 0), (1, 1, 1)⟩]
        ∧ (MeshBuilder.push ⟨[], []⟩
            [⟨(0, 0), (0, 0, 0)⟩, ⟨(0, 0), (1, 1, 1)⟩] [1]).indices
            = (⟨[], []⟩ : MeshBuilder).indices
                ++ [1].map (fun i => (⟨[], []⟩ : MeshBuilder).vertices.length + i)
        ∧ ∀ i ∈ [1],
            (MeshBuilder.push ⟨[], []⟩
              [⟨(0, 0), (0, 0, 0)⟩, ⟨(0, 0), (1, 1, 1)⟩]
              [1]).vertices[((⟨[], []⟩ : MeshBuilder).vertices.length % 65536 + i) % 65536]?
              = [(⟨(0, 0), (0, 0, 0)⟩ : Vertex), ⟨(0, 0), (1, 1, 1)⟩][i]?) :=
  ⟨by simp, by simp,
   C8_push_rebases_indices ⟨[], []⟩
     [⟨(0, 0), (0, 0, 0)⟩, ⟨(0, 0), (1, 1, 1)⟩] [1]
     (by simp) (by simp)⟩

theorem push_wrap_at_full_u16 (b : MeshBuilder)
    (hlen : b.vertices.length = 65536) (w : Vertex) :
    (b.push [w] [0]).indices = b.indices ++ [0]
    ∧ (b.push [w] [0]).vertices[0]? = b.vertices[0]? := by
  constructor
  · simp only [MeshBuilder.push, List.map]
    rw [hlen]
  · simp only [MeshBuilder.push]
    rw [List.getElem?_append_left (by rw [hlen]; norm_num)]

/-- C8 counterexample: on a builder that already holds 2^16 vertices, the
u16 index arithmetic wraps: pushing one vertex with index 0 appends the
rebased index 0 (not 65536 + 0), and that index addresses the first vertex
of the old buffer rather than the newly pushed, different vertex. -/
theorem C8_push_wraps_at_u16_boundary :
    (MeshBuilder.push ⟨List.replicate 65536 ⟨(0, 0), (0, 0, 0)⟩, []⟩
        [⟨(0, 0), (1, 1, 1)⟩] [0]).indices = [0]
    ∧ (MeshBuilder.push ⟨List.replicate 65536 ⟨(0, 0), (0, 0, 0)⟩, []⟩
        [⟨(0, 0), (1, 1, 1)⟩] [0]).vertices[0]?
        = some ⟨(0, 0), (0, 0, 0)⟩
    ∧ (⟨(0, 0), (0, 0, 0)⟩ : Vertex) ≠ ⟨(0, 0), (1, 1, 1)⟩ := by
  have h := push_wrap_at_full_u16 ⟨List.replicate 65536 ⟨(0, 0), (0, 0, 0)⟩, []⟩
    (by simp only [List.length_replicate]) ⟨(0, 0), (1, 1, 1)⟩
  refine ⟨?_, ?_, ?_⟩
  · rw [h.1]
    rfl
  · rw [h.2]
    simp only [List.getElem?_replicate]
    norm_num
  · intro hcontra
    have := congrArg (fun v : Vertex => v.color.1) hcontra
    norm_num at this

/-- C10: consuming a `Reset` event mutates only the ball's position (set to
the spawn point); the ball's velocity, the paddle, the latched controls and
the camera offset are unchanged. -/
theorem C10_reset_mutates_only_ball_position (s : SimState) :
    (applyEvent s Event.Reset).ball.position = (⟨0, 0.7⟩ : Vector2)
    ∧ (applyEvent s Event.Reset).ball.velocity = s.ball.velocity
    ∧ (applyEvent s Event.Reset).paddle = s.paddle
    ∧ (applyEvent s Event.Reset).controls = s.controls
    ∧ (applyEvent s Event.Reset).camera = s.camera :=
  ⟨rfl, rfl, rfl, rfl, rfl⟩

end WgpuFun
